import Mathlib

/-!
# ArUcoMarkers: the capture-and-aggregation pipeline of `calibrate`

A shallow embedding of `main` in `src/calibrate.cpp`, from the handling of the
arguments (line 102) through the capture loop (line 143) to the hand-over to
the solver and the persister (line 222), and of the board geometry computed
by `main` in `src/generate_board.cpp` (lines 24-53).

* The camera, the marker detector and the keyboard are external. One loop
  iteration consumes one `Tick`: the size of the grabbed image, what
  `aruco::detectMarkers` returned for it, and what `waitKey` returned.
  The stream of ticks ends when `inputVideo.grab()` fails.
* Corner polygons are only copied, never inspected, so their type is a
  parameter `P`.
* `std::set<int>` is a strictly increasing list.
* `vector::operator[]` past the end is undefined behaviour; indexing in the
  embedding returns `Option`, and `none` stands for that error.
* `int` is 32 bits wide and `size_t` 64 bits wide.
* OpenCV is not part of the repository. `aruco::GridBoard::create` is a
  parameter of the embedding of `calibrate`, and the embedding of
  `generate_board` records the arguments it is called with.
* The `float` values read from the command line are only passed on; they are
  rationals here.
-/

namespace GenerateBoard

/-! ## Board geometry of `generate_board` (lines 24-53) -/

/-- Result of an `int` operation, wrapped to 32 bits. -/
def wrapInt (x : Int) : Int :=
  (x + 2 ^ 31) % 2 ^ 32 - 2 ^ 31

/-- Conversion `float(n)` of an `int` (line 53): the nearest value with a
24-bit significand, ties to the even significand. The result is again an
integer, and it is `n` itself when `|n| < 2^24`. -/
def floatOfInt (n : Int) : Int :=
  match (List.range 9).find? (fun k => decide (n.natAbs / 2 ^ k < 2 ^ 24)) with
  | none => n
  | some k =>
    let q : Nat := 2 ^ k
    let m : Nat := n.natAbs / q
    let r : Nat := n.natAbs % q
    let m1 : Nat := if 2 * r > q ∨ (2 * r = q ∧ m % 2 = 1) then m + 1 else m
    n.sign * ((m1 * q : Nat) : Int)

/-- What `main` asks of OpenCV: the size handed to `board->draw` (the image
without its white border) and the first four arguments of
`aruco::GridBoard::create`, whose first parameter is the number of markers in
X and whose second is the number in Y. The two lengths are the values of the
`float` arguments. -/
structure BoardRequest where
  imageWidth : Int
  imageHeight : Int
  markersX : Int
  markersY : Int
  markerLength : Int
  markerSeparation : Int
deriving DecidableEq

/-- Lines 24-53 of `main`. `markersR` is the value of `-r`, `markersC` that of
`-c`, `markerSize` that of `-l`, `markerSeparation` that of `-s`; `checkOk`
is the result of `parser.check()`. The result is `none` when `main` returns
`-1` before the board is created. -/
def generateBoard (argc : Int) (checkOk : Bool)
    (markersR markersC markerSize markerSeparation : Int) : Option BoardRequest :=
  if argc < 7 then none
  else if checkOk = false then none
  else
    some { imageWidth :=
             wrapInt (wrapInt (markersC * wrapInt (markerSize + markerSeparation))
               - markerSeparation),
           imageHeight :=
             wrapInt (wrapInt (markersR * wrapInt (markerSize + markerSeparation))
               - markerSeparation),
           markersX := markersC,
           markersY := markersR,
           markerLength := floatOfInt markerSize,
           markerSeparation := floatOfInt markerSeparation }

end GenerateBoard

namespace Calibrate

/-! ## Data -/

/-- Image size `cv::Size`; `Size()` is `0 x 0`. -/
structure Size where
  width : Int
  height : Int
deriving DecidableEq

/-- Result of `aruco::detectMarkers` for one image (lines 150-152): the corner
polygons and the marker identifiers, as two separate vectors. -/
structure Detection (P : Type) where
  corners : List P
  ids : List Int
deriving DecidableEq

/-- One loop iteration's external inputs: `image.size()`, the detector's result
and the value returned by `waitKey`. -/
structure Tick (P : Type) where
  imageSize : Size
  detection : Detection P
  key : Int
deriving DecidableEq

/-- Variables that live across iterations (lines 139-141). -/
structure Session (P : Type) where
  allCorners : List (List P)
  allIds : List (List Int)
  imgSize : Size
deriving DecidableEq

/-- State on loop entry: both vectors empty, `imgSize` default-constructed. -/
def Session.init (P : Type) : Session P :=
  { allCorners := [], allIds := [], imgSize := ⟨0, 0⟩ }

/-! ## Coverage check (lines 172-180) -/

/-- Insertion into a `std::set<int>`: the element is placed in order, and an
element that is already there is not inserted again. -/
def setInsert (x : Int) : List Int → List Int
  | [] => [x]
  | y :: ys =>
    if x < y then x :: y :: ys
    else if x = y then y :: ys
    else y :: setInsert x ys

/-- Range constructor `set<int> detectedIds(ids.begin(), ids.end())`. -/
def setOfRange (ids : List Int) : List Int :=
  ids.foldl (fun s x => setInsert x s) []

/-- Membership test `detectedIds.find(id) != detectedIds.end()`. -/
def setFind (s : List Int) (id : Int) : Bool :=
  s.any (fun y => decide (y = id))

/-- Loop over `board->ids` with its `break`: the flag stays `true` until the
first board identifier that is not found. -/
def allMarkersPresentLoop (detectedIds : List Int) : List Int → Bool
  | [] => true
  | id :: rest =>
    if setFind detectedIds id = false then false
    else allMarkersPresentLoop detectedIds rest

/-- Value of `allMarkersPresent` after the loop, for board identifiers
`boardIds` and detected identifiers `ids`. -/
def allMarkersPresent (boardIds ids : List Int) : Bool :=
  allMarkersPresentLoop (setOfRange ids) boardIds

/-! ## One iteration of the capture loop (lines 143-191) -/

/-- Conversion `(char)waitKey(...)`: the low eight bits, read as a signed
byte. With an unsigned `char` the comparisons with `27` and with the letter c
give the same results. -/
def toChar (key : Int) : Int :=
  (key + 128) % 256 - 128

/-- How an iteration ends: `next` goes on to the loop test, `exit` is the
`break` of line 168. Both carry the session variables. -/
inductive Flow (P : Type) where
  | next (s : Session P)
  | exit (s : Session P)
deriving DecidableEq

/-- Session variables at the end of an iteration. -/
def Flow.session {P : Type} : Flow P → Session P
  | .next s => s
  | .exit s => s

/-- Body of the `while` loop, lines 166-190. ESC (27) breaks out; the letter c
(99) with at least one detected marker runs the coverage check and, when it
passes, pushes the corners and the ids and overwrites `imgSize`; everything
else leaves the session as it was. -/
def iteration {P : Type} (boardIds : List Int) (s : Session P) (t : Tick P) : Flow P :=
  if toChar t.key = 27 then
    .exit s
  else if toChar t.key = 99 ∧ t.detection.ids.length > 0 then
    if allMarkersPresent boardIds t.detection.ids = true then
      .next { allCorners := s.allCorners ++ [t.detection.corners],
              allIds := s.allIds ++ [t.detection.ids],
              imgSize := t.imageSize }
    else
      .next s
  else
    .next s

/-- The `while (inputVideo.grab())` loop over a stream of ticks: it ends when
the stream does or at the first `break`. -/
def captureLoop {P : Type} (boardIds : List Int) (s : Session P) :
    List (Tick P) → Session P
  | [] => s
  | t :: rest =>
    match iteration boardIds s t with
    | .exit s1 => s1
    | .next s1 => captureLoop boardIds s1 rest

/-! ## After the loop (lines 193-225) -/

/-- Test `allIds.size() < MIN_FRAMES` of line 194. The left operand is a
`size_t` and the right one an `int`, so the `int` is converted to `size_t`
(taken modulo `2^64`) before the unsigned comparison. -/
def insufficientFrames (size : Nat) (minFrames : Int) : Bool :=
  decide ((size : Int) < minFrames % 2 ^ 64)

/-- Conversion `(int)allCorners[i].size()` of line 208. -/
def toInt32 (n : Nat) : Int :=
  ((n : Int) + 2 ^ 31) % 2 ^ 32 - 2 ^ 31

/-- The three vectors built by lines 204-213. -/
structure Flattened (P : Type) where
  allCornersConcatenated : List P
  allIdsConcatenated : List Int
  markerCounterPerFrame : List Int
deriving DecidableEq

/-- Body of the inner loop (lines 210-211) for frame `i`, marker `j`:
reads `allCorners[i][j]` and `allIds[i][j]` and pushes both. -/
def flattenMarker {P : Type} (allCorners : List (List P)) (allIds : List (List Int))
    (i : Nat) (acc : Flattened P) (j : Nat) : Option (Flattened P) := do
  let cornersI ← allCorners[i]?
  let c ← cornersI[j]?
  let idsI ← allIds[i]?
  let id ← idsI[j]?
  pure { acc with
    allCornersConcatenated := acc.allCornersConcatenated ++ [c],
    allIdsConcatenated := acc.allIdsConcatenated ++ [id] }

/-- Body of the outer loop (lines 208-212) for frame `i`: pushes the number
of corner polygons of the frame, then runs `j` from `0` to
`allCorners[i].size()`. -/
def flattenFrame {P : Type} (allCorners : List (List P)) (allIds : List (List Int))
    (acc : Flattened P) (i : Nat) : Option (Flattened P) := do
  let cornersI ← allCorners[i]?
  let acc1 : Flattened P := { acc with
    markerCounterPerFrame := acc.markerCounterPerFrame ++ [toInt32 cornersI.length] }
  (List.range cornersI.length).foldlM (flattenMarker allCorners allIds i) acc1

/-- The concatenation loop, lines 204-213: `i` runs from `0` to
`allCorners.size()`. -/
def flatten {P : Type} (allCorners : List (List P)) (allIds : List (List Int)) :
    Option (Flattened P) :=
  (List.range allCorners.length).foldlM (flattenFrame allCorners allIds) ⟨[], [], []⟩

/-- Arguments of the call to `aruco::calibrateCameraAruco` (lines 216-219)
that come from the capture loop. -/
structure SolverCall (P : Type) where
  flattened : Flattened P
  boardIds : List Int
  imageSize : Size
deriving DecidableEq

/-- What the program does after the loop. -/
inductive Outcome (P : Type) where
  /-- Lines 194-197: the message on `cerr` with the number of frames, `return 1`. -/
  | insufficient (frames : Nat)
  /-- A vector was indexed past its end in lines 207-213. That is undefined
  behaviour in the program; the embedding ends the run here. -/
  | outOfBounds
  /-- The solver was called with `solver` and threw; nothing in `main` catches
  the exception, so `saveCameraParams` is not called. -/
  | solverThrew (solver : SolverCall P)
  /-- The solver was called and returned, then `saveCameraParams` was called
  with `saveSize`; the exit code is `0` when the file could be written and `1`
  when not. -/
  | calibrated (solver : SolverCall P) (saveSize : Size) (exitCode : Int)
deriving DecidableEq

/-- Lines 193-233. `solverOk` tells whether `aruco::calibrateCameraAruco`
returns (it throws when not), `saveOk` whether `saveCameraParams` can open
the output file. -/
def afterLoop {P : Type} (boardIds : List Int) (minFrames : Int) (solverOk saveOk : Bool)
    (s : Session P) : Outcome P :=
  if insufficientFrames s.allIds.length minFrames = true then
    .insufficient s.allIds.length
  else
    match flatten s.allCorners s.allIds with
    | none => .outOfBounds
    | some f =>
      if solverOk = true then
        .calibrated { flattened := f, boardIds := boardIds, imageSize := s.imgSize }
          s.imgSize (if saveOk = true then 0 else 1)
      else
        .solverThrew { flattened := f, boardIds := boardIds, imageSize := s.imgSize }

/-- The capture session from loop entry to the end of `main`. -/
def session {P : Type} (boardIds : List Int) (minFrames : Int) (solverOk saveOk : Bool)
    (stream : List (Tick P)) : Outcome P :=
  afterLoop boardIds minFrames solverOk saveOk
    (captureLoop boardIds (Session.init P) stream)

/-- Whether `aruco::calibrateCameraAruco` was called. -/
def Outcome.solverInvoked {P : Type} : Outcome P → Bool
  | .calibrated _ _ _ => true
  | .solverThrew _ => true
  | _ => false

/-- Whether `saveCameraParams` was called. -/
def Outcome.persisterInvoked {P : Type} : Outcome P → Bool
  | .calibrated _ _ _ => true
  | _ => false

/-! ## The capture gate and the reachable states -/

/-- Whether a capture event (key c) on detected identifiers `ids` reaches the
accept branch: the test `ids.size() > 0` of line 171 and the flag tested on
line 182. -/
def captureAccepted (boardIds ids : List Int) : Bool :=
  decide (ids.length > 0) && allMarkersPresent boardIds ids

/-- Session states the loop can be in: the state on loop entry, and the state
at the end of an iteration started in such a state. `ok` is what is known of
every tick the camera, the detector and the keyboard can deliver. -/
inductive Reachable {P : Type} (boardIds : List Int) (ok : Tick P → Prop) :
    Session P → Prop where
  | init : Reachable boardIds ok (Session.init P)
  | step (s : Session P) (t : Tick P) :
      Reachable boardIds ok s → ok t → Reachable boardIds ok (iteration boardIds s t).session

/-! ## Before the loop (lines 102-143) -/

/-- How the part of `main` before the loop ends. -/
inductive Startup where
  /-- Lines 102-105: `argc < 6`, the usage message is printed, `return 0`. -/
  | usage
  /-- Lines 118-123: the detector parameters file could not be read, a message
  on `cerr`, `return 0`. -/
  | invalidDetectorParams
  /-- Lines 127-130: the camera could not be opened, a message on `cerr`,
  `return 1`. -/
  | cameraFailed
  /-- The library call of lines 133-136 threw; nothing in `main` catches it. -/
  | libraryError
  /-- Line 143 is reached with this board. -/
  | running (boardIds : List Int)
deriving DecidableEq

/-- Value returned by `main` when it returns before the loop. -/
def Startup.exitCode : Startup → Option Int
  | .usage => some 0
  | .invalidDetectorParams => some 0
  | .cameraFailed => some 1
  | .libraryError => none
  | .running _ => none

theorem mem_setInsert (x a : Int) (s : List Int) :
    a ∈ setInsert x s ↔ a = x ∨ a ∈ s := by
  induction s with
  | nil => simp [setInsert]
  | cons y ys ih =>
    unfold setInsert
    split_ifs with h1 h2
    · simp
    · subst h2; simp
    · simp only [List.mem_cons, ih]; tauto

theorem mem_foldl_setInsert (ids : List Int) :
    ∀ (acc : List Int) (a : Int),
      a ∈ ids.foldl (fun s x => setInsert x s) acc ↔ a ∈ acc ∨ a ∈ ids := by
  induction ids with
  | nil => intro acc a; simp
  | cons x xs ih =>
    intro acc a
    simp only [List.foldl_cons, ih, mem_setInsert, List.mem_cons]
    tauto

theorem mem_setOfRange (ids : List Int) (a : Int) :
    a ∈ setOfRange ids ↔ a ∈ ids := by
  simp [setOfRange, mem_foldl_setInsert]

theorem setFind_eq_true (s : List Int) (id : Int) :
    setFind s id = true ↔ id ∈ s := by
  simp [setFind]

theorem allMarkersPresentLoop_eq_true (d b : List Int) :
    allMarkersPresentLoop d b = true ↔ ∀ id ∈ b, id ∈ d := by
  induction b with
  | nil => simp [allMarkersPresentLoop]
  | cons x xs ih =>
    unfold allMarkersPresentLoop
    by_cases hx : setFind d x = true
    · have hm := (setFind_eq_true d x).1 hx
      simp [hx, ih, hm]
    · have hn : x ∉ d := fun h => hx ((setFind_eq_true d x).2 h)
      simp only [Bool.not_eq_true] at hx
      simp [hx, hn]

theorem allMarkersPresent_iff (b o : List Int) :
    allMarkersPresent b o = true ↔ ∀ id ∈ b, id ∈ o := by
  simp [allMarkersPresent, allMarkersPresentLoop_eq_true, mem_setOfRange]

/-! ## Lemmas on the concatenation loop -/

/-- The inner loop run for `n` markers of frame `i` appends the first `n`
corner polygons and the first `n` ids of that frame. -/
theorem foldlM_flattenMarker {P : Type} (allCorners : List (List P))
    (allIds : List (List Int)) (i : Nat) (cs : List P) (is : List Int)
    (hc : allCorners[i]? = some cs) (hi : allIds[i]? = some is) :
    ∀ (n : Nat) (acc : Flattened P), n ≤ cs.length → n ≤ is.length →
      (List.range n).foldlM (flattenMarker allCorners allIds i) acc =
        some { allCornersConcatenated := acc.allCornersConcatenated ++ cs.take n,
               allIdsConcatenated := acc.allIdsConcatenated ++ is.take n,
               markerCounterPerFrame := acc.markerCounterPerFrame } := by
  intro n
  induction n with
  | zero => intro acc _ _; simp
  | succ n ih =>
    intro acc h1 h2
    have hn1 : n < cs.length := h1
    have hn2 : n < is.length := h2
    rw [List.range_succ, List.foldlM_append, ih acc (Nat.le_of_lt hn1) (Nat.le_of_lt hn2)]
    have e1 : cs[n]? = some (cs[n]) := List.getElem?_eq_getElem hn1
    have e2 : is[n]? = some (is[n]) := List.getElem?_eq_getElem hn2
    have t1 : cs.take (n + 1) = cs.take n ++ [cs[n]] := by rw [List.take_succ, e1]; rfl
    have t2 : is.take (n + 1) = is.take n ++ [is[n]] := by rw [List.take_succ, e2]; rfl
    rw [t1, t2]
    simp [flattenMarker, hc, hi, e1, e2]

/-- On a frame whose ids and corners have the same length, one pass of the
outer loop appends the frame: its count, its corners and its ids. -/
theorem flattenFrame_eq {P : Type} (frames : List (Detection P)) (acc : Flattened P)
    (i : Nat) (f : Detection P) (hf : frames[i]? = some f)
    (hpair : f.ids.length = f.corners.length) :
    flattenFrame (frames.map (fun f => f.corners)) (frames.map (fun f => f.ids)) acc i =
      some { allCornersConcatenated := acc.allCornersConcatenated ++ f.corners,
             allIdsConcatenated := acc.allIdsConcatenated ++ f.ids,
             markerCounterPerFrame :=
               acc.markerCounterPerFrame ++ [toInt32 f.corners.length] } := by
  have hc : (frames.map (fun f => f.corners))[i]? = some f.corners := by simp [hf]
  have hi : (frames.map (fun f => f.ids))[i]? = some f.ids := by simp [hf]
  unfold flattenFrame
  rw [hc]
  simp only [Option.bind_eq_bind, Option.some_bind]
  rw [foldlM_flattenMarker _ _ i f.corners f.ids hc hi f.corners.length _ (le_refl _)
    (by omega)]
  have ht : f.ids.take f.corners.length = f.ids := by
    rw [← hpair]; exact List.take_length f.ids
  simp [ht]

/-- The outer loop run for the first `n` frames. -/
theorem foldlM_flattenFrame {P : Type} (frames : List (Detection P))
    (hpair : ∀ f ∈ frames, f.ids.length = f.corners.length) :
    ∀ n : Nat, n ≤ frames.length →
      (List.range n).foldlM
          (flattenFrame (frames.map (fun f => f.corners)) (frames.map (fun f => f.ids)))
          ⟨[], [], []⟩ =
        some { allCornersConcatenated := (frames.take n).flatMap (fun f => f.corners),
               allIdsConcatenated := (frames.take n).flatMap (fun f => f.ids),
               markerCounterPerFrame :=
                 (frames.take n).map (fun f => toInt32 f.corners.length) } := by
  intro n
  induction n with
  | zero => intro _; simp
  | succ n ih =>
    intro hn
    have hlt : n < frames.length := hn
    have e : frames[n]? = some (frames[n]) := List.getElem?_eq_getElem hlt
    have t : frames.take (n + 1) = frames.take n ++ [frames[n]] := by
      rw [List.take_succ, e]; rfl
    rw [List.range_succ, List.foldlM_append, ih (Nat.le_of_lt hlt)]
    simp only [List.foldlM_cons, List.foldlM_nil, Option.bind_eq_bind, Option.some_bind]
    rw [flattenFrame_eq frames _ n (frames[n]) e (hpair _ (List.getElem_mem hlt)), t]
    simp only [List.flatMap_append, List.map_append, List.flatMap_cons, List.flatMap_nil,
      List.map_cons, List.map_nil, List.append_nil]
    rfl

/-- Closed form of the concatenation loop on frames that pair ids and corners. -/
theorem flatten_eq {P : Type} (frames : List (Detection P))
    (hpair : ∀ f ∈ frames, f.ids.length = f.corners.length) :
    flatten (frames.map (fun f => f.corners)) (frames.map (fun f => f.ids)) =
      some { allCornersConcatenated := frames.flatMap (fun f => f.corners),
             allIdsConcatenated := frames.flatMap (fun f => f.ids),
             markerCounterPerFrame := frames.map (fun f => toInt32 f.corners.length) } := by
  have h := foldlM_flattenFrame frames hpair frames.length (le_refl _)
  simpa [flatten] using h

/-- Below `2^31` the conversion to `int` keeps the value. -/
theorem toInt32_of_lt (n : Nat) (h : n < 2 ^ 31) : toInt32 n = (n : Int) := by
  unfold toInt32
  omega

theorem length_flatMap_ids_eq {P : Type} (frames : List (Detection P))
    (hpair : ∀ f ∈ frames, f.ids.length = f.corners.length) :
    (frames.flatMap (fun f => f.ids)).length =
      (frames.flatMap (fun f => f.corners)).length := by
  induction frames with
  | nil => rfl
  | cons f fs ih =>
    have h1 := hpair f (List.mem_cons_self f fs)
    have h2 := ih (fun g hg => hpair g (List.mem_cons_of_mem f hg))
    simp only [List.flatMap_cons, List.length_append, h1, h2]

theorem sum_counts_eq {P : Type} (frames : List (Detection P))
    (hsmall : ∀ f ∈ frames, f.corners.length < 2 ^ 31) :
    (frames.map (fun f => toInt32 f.corners.length)).sum =
      ((frames.flatMap (fun f => f.corners)).length : Int) := by
  induction frames with
  | nil => rfl
  | cons f fs ih =>
    have h1 := toInt32_of_lt _ (hsmall f (List.mem_cons_self f fs))
    have h2 := ih (fun g hg => hsmall g (List.mem_cons_of_mem f hg))
    simp only [List.map_cons, List.sum_cons, List.flatMap_cons, List.length_append, h1, h2]
    push_cast
    rfl

theorem zip_flatMap_eq {P : Type} (frames : List (Detection P))
    (hpair : ∀ f ∈ frames, f.ids.length = f.corners.length) :
    (frames.flatMap (fun f => f.corners)).zip (frames.flatMap (fun f => f.ids)) =
      frames.flatMap (fun f => f.corners.zip f.ids) := by
  induction frames with
  | nil => rfl
  | cons f fs ih =>
    have h1 := hpair f (List.mem_cons_self f fs)
    have h2 := ih (fun g hg => hpair g (List.mem_cons_of_mem f hg))
    simp only [List.flatMap_cons]
    rw [List.zip_append h1.symm, h2]

/-! ## Lemmas on the capture loop -/

/-- ESC breaks out of the loop and leaves the session variables alone. -/
theorem iteration_esc {P : Type} (boardIds : List Int) (s : Session P) (t : Tick P)
    (hkey : toChar t.key = 27) : iteration boardIds s t = .exit s := by
  simp [iteration, hkey]

/-- The accept branch: key c, at least one marker, every board id detected. -/
theorem iteration_accept {P : Type} (boardIds : List Int) (s : Session P) (t : Tick P)
    (hkey : toChar t.key = 99) (hne : t.detection.ids ≠ [])
    (hcov : ∀ id ∈ boardIds, id ∈ t.detection.ids) :
    iteration boardIds s t =
      .next { allCorners := s.allCorners ++ [t.detection.corners],
              allIds := s.allIds ++ [t.detection.ids],
              imgSize := t.imageSize } := by
  have hpos : 0 < t.detection.ids.length := List.length_pos.2 hne
  have hall : allMarkersPresent boardIds t.detection.ids = true :=
    (allMarkersPresent_iff _ _).2 hcov
  simp [iteration, hkey, hpos, hall]

/-- Any other key leaves the session as it was and the loop goes on. -/
theorem iteration_other_key {P : Type} (boardIds : List Int) (s : Session P) (t : Tick P)
    (h27 : toChar t.key ≠ 27) (h99 : toChar t.key ≠ 99) :
    iteration boardIds s t = .next s := by
  simp [iteration, h27, h99]

/-- A capture that misses a board identifier is rejected: nothing is stored. -/
theorem iteration_reject {P : Type} (boardIds : List Int) (s : Session P) (t : Tick P)
    (hkey : toChar t.key = 99) (hmiss : ¬ ∀ id ∈ boardIds, id ∈ t.detection.ids) :
    iteration boardIds s t = .next s := by
  have hall : ¬ allMarkersPresent boardIds t.detection.ids = true :=
    fun h => hmiss ((allMarkersPresent_iff _ _).1 h)
  simp only [iteration, hkey]
  split_ifs <;> first | rfl | contradiction

/-- For a threshold in `0 .. 2^64 - 1` the unsigned test of line 194 is the
comparison of the integers. -/
theorem insufficientFrames_of_nonneg (size : Nat) (minFrames : Int)
    (h0 : 0 ≤ minFrames) (h1 : minFrames < 2 ^ 64) :
    insufficientFrames size minFrames = true ↔ (size : Int) < minFrames := by
  unfold insufficientFrames
  rw [Int.emod_eq_of_lt h0 h1]
  simp

/-- For a negative `int` threshold the unsigned test of line 194 reports
too few frames, whatever the number of frames a vector can hold. -/
theorem insufficientFrames_of_neg (size : Nat) (minFrames : Int)
    (hlo : -(2 ^ 31) ≤ minFrames) (hneg : minFrames < 0) (hsize : size < 2 ^ 63) :
    insufficientFrames size minFrames = true := by
  unfold insufficientFrames
  simp only [decide_eq_true_eq]
  omega

/-- A run of accepted captures appends every frame, in order, and leaves in
`imgSize` the image size of the last one. -/
theorem captureLoop_accepted {P : Type} (boardIds : List Int) (ts : List (Tick P)) :
    ∀ s : Session P,
      (∀ t ∈ ts, toChar t.key = 99 ∧ t.detection.ids ≠ [] ∧
        ∀ id ∈ boardIds, id ∈ t.detection.ids) →
      captureLoop boardIds s ts =
        { allCorners := s.allCorners ++ ts.map (fun t => t.detection.corners),
          allIds := s.allIds ++ ts.map (fun t => t.detection.ids),
          imgSize := (ts.getLast?.map (fun t => t.imageSize)).getD s.imgSize } := by
  induction ts with
  | nil => intro s _; simp [captureLoop]
  | cons t rest ih =>
    intro s h
    obtain ⟨hk, hne, hcov⟩ := h t (List.mem_cons_self t rest)
    have hrest := fun u hu => h u (List.mem_cons_of_mem t hu)
    simp only [captureLoop, iteration_accept boardIds s t hk hne hcov]
    rw [ih _ hrest]
    cases rest with
    | nil => simp
    | cons u us => simp [List.getLast?_cons_cons, List.getLast?_eq_getLast _ (List.cons_ne_nil u us)]

/-- Whatever is handed to the solver and to the persister carries the image
size held by the session. -/
theorem afterLoop_imageSize {P : Type} (boardIds : List Int) (minFrames : Int)
    (solverOk saveOk : Bool) (s : Session P) (solver : SolverCall P) :
    (∀ (saveSize : Size) (exitCode : Int),
      afterLoop boardIds minFrames solverOk saveOk s = .calibrated solver saveSize exitCode →
        solver.imageSize = s.imgSize ∧ saveSize = s.imgSize) ∧
    (afterLoop boardIds minFrames solverOk saveOk s = .solverThrew solver →
      solver.imageSize = s.imgSize) := by
  unfold afterLoop
  by_cases hi : insufficientFrames s.allIds.length minFrames = true
  · rw [if_pos hi]
    exact ⟨fun _ _ h => (by cases h), fun h => (by cases h)⟩
  · rw [if_neg hi]
    cases flatten s.allCorners s.allIds with
    | none => exact ⟨fun _ _ h => (by cases h), fun h => (by cases h)⟩
    | some f =>
      cases solverOk with
      | true =>
        refine ⟨fun _ _ h => ?_, fun h => ?_⟩
        · simp only [if_true] at h
          cases h
          exact ⟨rfl, rfl⟩
        · simp only [if_true] at h
          cases h
      | false =>
        refine ⟨fun _ _ h => ?_, fun h => ?_⟩
        · simp only [Bool.false_eq_true, if_false] at h
          cases h
        · simp only [Bool.false_eq_true, if_false] at h
          cases h
          rfl

/-! ## Coverage check: the claims -/

/-- C1. For every board id list `b` and every detected id list `o`, the flag
`allMarkersPresent` computed by the loop over `board->ids` is true if and only
if every identifier of `b` occurs in `o`, that is, the set of `o` is a
superset of the set of `b`; the order of `o` and duplicates in it play no
part. -/
theorem allMarkersPresent_iff_superset (b o : List Int) :
    (allMarkersPresent b o = true ↔ ∀ id ∈ b, id ∈ o) ∧
    (allMarkersPresent b o = true ↔ b.toFinset ⊆ o.toFinset) := by
  refine ⟨allMarkersPresent_iff b o, ?_⟩
  rw [allMarkersPresent_iff]
  constructor
  · intro h id hid
    exact List.mem_toFinset.2 (h id (List.mem_toFinset.1 hid))
  · intro h id hid
    exact List.mem_toFinset.1 (h (List.mem_toFinset.2 hid))

/-! ## Concatenation loop: the claims -/

/-- C2. For every sequence of accepted frames, the flattening loop returns
`markerCounterPerFrame`, `allIdsConcatenated` and `allCornersConcatenated`
with
`sum(markerCounterPerFrame) == len(allIdsConcatenated) == len(allCornersConcatenated)`,
there is exactly one count per frame, and
`markerCounterPerFrame[i] == len(frames[i].ids)` for every frame index `i`.
An accepted frame is a result of the detector: it has one corner polygon per
id (`hpair`, invariant (a) of a frame observation), and their number fits an
`int` (`hsmall`). -/
theorem flatten_counts {P : Type} (frames : List (Detection P))
    (hpair : ∀ f ∈ frames, f.ids.length = f.corners.length)
    (hsmall : ∀ f ∈ frames, f.corners.length < 2 ^ 31) :
    ∃ r : Flattened P,
      flatten (frames.map (fun f => f.corners)) (frames.map (fun f => f.ids)) = some r ∧
      r.markerCounterPerFrame.sum = (r.allIdsConcatenated.length : Int) ∧
      r.allIdsConcatenated.length = r.allCornersConcatenated.length ∧
      r.markerCounterPerFrame.length = frames.length ∧
      ∀ (i : Nat) (h : i < frames.length),
        r.markerCounterPerFrame[i]? = some ((frames[i].ids.length : Nat) : Int) := by
  refine ⟨_, flatten_eq frames hpair, ?_, ?_, ?_, ?_⟩
  · show (frames.map (fun f => toInt32 f.corners.length)).sum = _
    rw [sum_counts_eq frames hsmall]
    show _ = (((frames.flatMap (fun f => f.ids)).length : Nat) : Int)
    rw [length_flatMap_ids_eq frames hpair]
  · exact length_flatMap_ids_eq frames hpair
  · show (frames.map (fun f => toInt32 f.corners.length)).length = _
    exact List.length_map _ _
  · intro i h
    show (frames.map (fun f => toInt32 f.corners.length))[i]? = _
    have hm := List.getElem_mem h
    rw [List.getElem?_map, List.getElem?_eq_getElem h, Option.map_some',
      toInt32_of_lt _ (hsmall _ hm), hpair _ hm]

/-- Witness for C2: two frames, of two markers and of one. -/
theorem flatten_counts_witness :
    ∃ r : Flattened Nat,
      flatten [[10, 11], [12]] [[1, 2], [3]] = some r ∧
      r.markerCounterPerFrame.sum = (r.allIdsConcatenated.length : Int) ∧
      r.allIdsConcatenated.length = r.allCornersConcatenated.length ∧
      r.markerCounterPerFrame.length = 2 ∧
      ∀ (i : Nat) (h : i < 2),
        r.markerCounterPerFrame[i]? =
          some ((([⟨[10, 11], [1, 2]⟩, ⟨[12], [3]⟩] : List (Detection Nat))[i].ids.length : Nat) : Int) :=
  flatten_counts [⟨[10, 11], [1, 2]⟩, ⟨[12], [3]⟩] (by decide) (by decide)

/-- C7. For every sequence of accepted frames in which each frame has as many
ids as corner polygons, `allCornersConcatenated` is the concatenation of the
corner lists of the frames in capture order, `allIdsConcatenated` is the
concatenation of their id lists in capture order, and so the flattened
corners paired position by position with the flattened ids are the pairs
(corner, id) of the frames, frame after frame: the k-th flattened id is the
id that was index-paired with the k-th flattened corner polygon in its
frame. -/
theorem flatten_preserves_order_and_pairing {P : Type} (frames : List (Detection P))
    (hpair : ∀ f ∈ frames, f.ids.length = f.corners.length) :
    ∃ r : Flattened P,
      flatten (frames.map (fun f => f.corners)) (frames.map (fun f => f.ids)) = some r ∧
      r.allCornersConcatenated = (frames.map (fun f => f.corners)).flatten ∧
      r.allIdsConcatenated = (frames.map (fun f => f.ids)).flatten ∧
      r.allCornersConcatenated.zip r.allIdsConcatenated =
        (frames.map (fun f => f.corners.zip f.ids)).flatten := by
  refine ⟨_, flatten_eq frames hpair, ?_, ?_, ?_⟩
  · exact List.flatMap_def _ _
  · exact List.flatMap_def _ _
  · show (frames.flatMap (fun f => f.corners)).zip (frames.flatMap (fun f => f.ids)) = _
    rw [zip_flatMap_eq frames hpair]
    exact List.flatMap_def _ _

/-- Witness for C7: two frames, of two markers and of one. -/
theorem flatten_preserves_order_and_pairing_witness :
    ∃ r : Flattened Nat,
      flatten [[10, 11], [12]] [[1, 2], [3]] = some r ∧
      r.allCornersConcatenated = [10, 11, 12] ∧
      r.allIdsConcatenated = [1, 2, 3] ∧
      r.allCornersConcatenated.zip r.allIdsConcatenated = [(10, 1), (11, 2), (12, 3)] :=
  flatten_preserves_order_and_pairing [⟨[10, 11], [1, 2]⟩, ⟨[12], [3]⟩] (by decide)

/-! ## Capture loop and end of session: the claims -/

/-- C3, as the claim states it, fails. The corpus holds one frame accepted at
640 x 480; a capture of a covered frame of 320 x 240 is not refused: the frame
is appended and `imgSize` becomes 320 x 240. A whole session of these two
captures with `minframes = 2` goes on to the solver, whether the solver then
returns or throws, and when it returns to the persister. -/
theorem size_mismatch_counterexample :
    iteration [1] (⟨[[7]], [[1]], ⟨640, 480⟩⟩ : Session Nat) ⟨⟨320, 240⟩, ⟨[8], [1]⟩, 99⟩ =
      .next ⟨[[7], [8]], [[1], [1]], ⟨320, 240⟩⟩ ∧
    session [1] 2 true true
        ([⟨⟨640, 480⟩, ⟨[7], [1]⟩, 99⟩, ⟨⟨320, 240⟩, ⟨[8], [1]⟩, 99⟩] : List (Tick Nat)) =
      .calibrated ⟨⟨[7, 8], [1, 1], [1, 1]⟩, [1], ⟨320, 240⟩⟩ ⟨320, 240⟩ 0 ∧
    session [1] 2 false true
        ([⟨⟨640, 480⟩, ⟨[7], [1]⟩, 99⟩, ⟨⟨320, 240⟩, ⟨[8], [1]⟩, 99⟩] : List (Tick Nat)) =
      .solverThrew ⟨⟨[7, 8], [1, 1], [1, 1]⟩, [1], ⟨320, 240⟩⟩ := by
  refine ⟨by decide, by decide, by decide⟩

/-- C3, amended. The capture step has no image-size check and no SizeMismatch
failure. For every corpus, empty or not, and whatever image size was recorded
before, a capture of a non-empty frame that contains every board identifier
succeeds for every image size of the frame, equal to the recorded one or not:
the frame is appended, the earlier frames stay, the loop goes on, and the
recorded image size becomes the size of this frame. -/
theorem capture_accepts_any_image_size {P : Type} (boardIds : List Int) (s : Session P)
    (t : Tick P) (hkey : toChar t.key = 99) (hne : t.detection.ids ≠ [])
    (hcov : ∀ id ∈ boardIds, id ∈ t.detection.ids) :
    iteration boardIds s t =
      .next { allCorners := s.allCorners ++ [t.detection.corners],
              allIds := s.allIds ++ [t.detection.ids],
              imgSize := t.imageSize } :=
  iteration_accept boardIds s t hkey hne hcov

/-- Witness for C3 as amended: a frame of 320 x 240 after
one of 640 x 480. -/
theorem capture_accepts_any_image_size_witness :
    iteration [1] (⟨[[7]], [[1]], ⟨640, 480⟩⟩ : Session Nat) ⟨⟨320, 240⟩, ⟨[8], [1]⟩, 99⟩ =
      .next ⟨[[7]] ++ [[8]], [[1]] ++ [[1]], ⟨320, 240⟩⟩ :=
  capture_accepts_any_image_size [1] ⟨[[7]], [[1]], ⟨640, 480⟩⟩ ⟨⟨320, 240⟩, ⟨[8], [1]⟩, 99⟩
    (by decide) (by decide) (by decide)

/-- C4 fails on the code at `minframes = -1` with a stream that ends at once:
no frame was accepted and `0 >= -1`, so the claim sends the session to the
solver, but line 194 compares `0` with `(size_t)-1 = 2^64 - 1`, reports
insufficient frames and returns 1 without calling the solver. -/
theorem negative_minFrames_reported_insufficient :
    session [0] (-1) true true ([] : List (Tick Nat)) = .insufficient 0 ∧
    (session [0] (-1) true true ([] : List (Tick Nat))).solverInvoked = false ∧
    ((Session.init Nat).allIds.length : Int) ≥ -1 := by
  refine ⟨by decide, by decide, by decide⟩

/-- C5, as the claim states it, fails. With `minframes = 1`, one accepted
capture followed by ESC: the loop ends and the solver is invoked, whether it
then returns or throws; when it returns, the persister is invoked too. -/
theorem cancel_counterexample :
    session [1] 1 true true
        ([⟨⟨640, 480⟩, ⟨[7], [1]⟩, 99⟩, ⟨⟨640, 480⟩, ⟨[], []⟩, 27⟩] : List (Tick Nat)) =
      .calibrated ⟨⟨[7], [1], [1]⟩, [1], ⟨640, 480⟩⟩ ⟨640, 480⟩ 0 ∧
    (session [1] 1 true true
        ([⟨⟨640, 480⟩, ⟨[7], [1]⟩, 99⟩, ⟨⟨640, 480⟩, ⟨[], []⟩, 27⟩] :
          List (Tick Nat))).solverInvoked = true ∧
    (session [1] 1 true true
        ([⟨⟨640, 480⟩, ⟨[7], [1]⟩, 99⟩, ⟨⟨640, 480⟩, ⟨[], []⟩, 27⟩] :
          List (Tick Nat))).persisterInvoked = true ∧
    (session [1] 1 false true
        ([⟨⟨640, 480⟩, ⟨[7], [1]⟩, 99⟩, ⟨⟨640, 480⟩, ⟨[], []⟩, 27⟩] :
          List (Tick Nat))).solverInvoked = true := by
  refine ⟨by decide, by decide, by decide, by decide⟩

/-- C5, amended. For every session state and every non-negative `minFrames`,
an operator cancel event (ESC) ends the loop with no further corpus mutation:
the session variables are unchanged and the rest of the stream is not read.
The program then goes on as at the end of the stream. With fewer than
`minFrames` frames accepted it reports insufficient frames and invokes
neither the solver nor the persister. With at least `minFrames` frames it
runs the concatenation loop and, when that loop returns, invokes the solver;
the persister is invoked after it exactly when the solver returns, and not
when the solver throws. -/
theorem cancel_ends_loop {P : Type} (boardIds : List Int) (minFrames : Int)
    (solverOk saveOk : Bool) (s : Session P) (t : Tick P) (rest : List (Tick P))
    (hkey : toChar t.key = 27) (h0 : 0 ≤ minFrames) (h1 : minFrames < 2 ^ 31) :
    iteration boardIds s t = .exit s ∧
    captureLoop boardIds s (t :: rest) = s ∧
    afterLoop boardIds minFrames solverOk saveOk (captureLoop boardIds s (t :: rest)) =
      afterLoop boardIds minFrames solverOk saveOk (captureLoop boardIds s []) ∧
    ((s.allIds.length : Int) < minFrames →
      afterLoop boardIds minFrames solverOk saveOk (captureLoop boardIds s (t :: rest)) =
        .insufficient s.allIds.length ∧
      (afterLoop boardIds minFrames solverOk saveOk
          (captureLoop boardIds s (t :: rest))).solverInvoked = false ∧
      (afterLoop boardIds minFrames solverOk saveOk
          (captureLoop boardIds s (t :: rest))).persisterInvoked = false) ∧
    (minFrames ≤ (s.allIds.length : Int) →
      (afterLoop boardIds minFrames solverOk saveOk
          (captureLoop boardIds s (t :: rest))).solverInvoked =
        (flatten s.allCorners s.allIds).isSome ∧
      (afterLoop boardIds minFrames solverOk saveOk
          (captureLoop boardIds s (t :: rest))).persisterInvoked =
        ((flatten s.allCorners s.allIds).isSome && solverOk)) := by
  have hloop : captureLoop boardIds s (t :: rest) = s := by
    simp [captureLoop, iteration_esc boardIds s t hkey]
  have hins := insufficientFrames_of_nonneg s.allIds.length minFrames h0 (by omega)
  refine ⟨iteration_esc boardIds s t hkey, hloop, by rw [hloop]; rfl, ?_, ?_⟩
  · intro hlt
    rw [hloop]
    simp [afterLoop, hins.2 hlt, Outcome.solverInvoked, Outcome.persisterInvoked]
  · intro hge
    rw [hloop]
    have hno : insufficientFrames s.allIds.length minFrames = false := by
      cases hb : insufficientFrames s.allIds.length minFrames with
      | false => rfl
      | true => have := hins.1 hb; omega
    unfold afterLoop
    rw [hno]
    cases flatten s.allCorners s.allIds <;> cases solverOk <;>
      simp [Outcome.solverInvoked, Outcome.persisterInvoked]

/-- Witness for C5 as amended: ESC after one accepted frame, with one
more capture waiting in the stream and `minframes = 2`. -/
theorem cancel_ends_loop_witness :
    toChar 27 = 27 ∧
    captureLoop [1] (⟨[[7]], [[1]], ⟨640, 480⟩⟩ : Session Nat)
      (⟨⟨640, 480⟩, ⟨[], []⟩, 27⟩ :: [⟨⟨640, 480⟩, ⟨[8], [1]⟩, 99⟩]) =
        ⟨[[7]], [[1]], ⟨640, 480⟩⟩ ∧
    afterLoop [1] 2 true true (captureLoop [1] (⟨[[7]], [[1]], ⟨640, 480⟩⟩ : Session Nat)
      (⟨⟨640, 480⟩, ⟨[], []⟩, 27⟩ :: [⟨⟨640, 480⟩, ⟨[8], [1]⟩, 99⟩])) = .insufficient 1 :=
  ⟨by decide,
   (cancel_ends_loop [1] 2 true true ⟨[[7]], [[1]], ⟨640, 480⟩⟩ ⟨⟨640, 480⟩, ⟨[], []⟩, 27⟩
      [⟨⟨640, 480⟩, ⟨[8], [1]⟩, 99⟩] (by decide) (by decide) (by decide)).2.1,
   ((cancel_ends_loop [1] 2 true true ⟨[[7]], [[1]], ⟨640, 480⟩⟩ ⟨⟨640, 480⟩, ⟨[], []⟩, 27⟩
      [⟨⟨640, 480⟩, ⟨[8], [1]⟩, 99⟩] (by decide) (by decide) (by decide)).2.2.2.1
        (by decide)).1⟩

/-- C6, as the claim states it, fails. Two accepted captures, the first at
640 x 480 and the second at 800 x 600: the session holds 800 x 600, not the
size of the first accepted frame, and that is the size handed to the solver
and to the persister. -/
theorem imgSize_counterexample :
    (captureLoop [1] (Session.init Nat)
        [⟨⟨640, 480⟩, ⟨[7], [1]⟩, 99⟩, ⟨⟨800, 600⟩, ⟨[8], [1]⟩, 99⟩]).imgSize = ⟨800, 600⟩ ∧
    (⟨800, 600⟩ : Size) ≠ ⟨640, 480⟩ ∧
    session [1] 0 true true
        ([⟨⟨640, 480⟩, ⟨[7], [1]⟩, 99⟩, ⟨⟨800, 600⟩, ⟨[8], [1]⟩, 99⟩] : List (Tick Nat)) =
      .calibrated ⟨⟨[7, 8], [1, 1], [1, 1]⟩, [1], ⟨800, 600⟩⟩ ⟨800, 600⟩ 0 ∧
    session [1] 0 false true
        ([⟨⟨640, 480⟩, ⟨[7], [1]⟩, 99⟩, ⟨⟨800, 600⟩, ⟨[8], [1]⟩, 99⟩] : List (Tick Nat)) =
      .solverThrew ⟨⟨[7, 8], [1, 1], [1, 1]⟩, [1], ⟨800, 600⟩⟩ := by
  refine ⟨by decide, by decide, by decide, by decide⟩

/-- C6, amended. `imgSize` is overwritten by every accepted frame: for every
non-empty sequence of accepted captures, the image size held by the session,
and later handed to the solver and to the persister, equals the image size of
the last accepted frame. -/
theorem imgSize_is_last_accepted {P : Type} (boardIds : List Int) (s : Session P)
    (ts : List (Tick P)) (hne : ts ≠ [])
    (hacc : ∀ t ∈ ts, toChar t.key = 99 ∧ t.detection.ids ≠ [] ∧
      ∀ id ∈ boardIds, id ∈ t.detection.ids) :
    (captureLoop boardIds s ts).imgSize = (ts.getLast hne).imageSize ∧
    (∀ (minFrames : Int) (solverOk saveOk : Bool) (solver : SolverCall P) (saveSize : Size)
      (exitCode : Int),
      afterLoop boardIds minFrames solverOk saveOk (captureLoop boardIds s ts) =
          .calibrated solver saveSize exitCode →
        solver.imageSize = (ts.getLast hne).imageSize ∧
        saveSize = (ts.getLast hne).imageSize) ∧
    (∀ (minFrames : Int) (solverOk saveOk : Bool) (solver : SolverCall P),
      afterLoop boardIds minFrames solverOk saveOk (captureLoop boardIds s ts) =
          .solverThrew solver →
        solver.imageSize = (ts.getLast hne).imageSize) := by
  have hsz : (captureLoop boardIds s ts).imgSize = (ts.getLast hne).imageSize := by
    rw [captureLoop_accepted boardIds ts s hacc]
    simp [List.getLast?_eq_getLast _ hne]
  refine ⟨hsz, ?_, ?_⟩
  · intro minFrames solverOk saveOk solver saveSize exitCode h
    have h2 := (afterLoop_imageSize boardIds minFrames solverOk saveOk
      (captureLoop boardIds s ts) solver).1 saveSize exitCode h
    exact ⟨h2.1.trans hsz, h2.2.trans hsz⟩
  · intro minFrames solverOk saveOk solver h
    exact ((afterLoop_imageSize boardIds minFrames solverOk saveOk
      (captureLoop boardIds s ts) solver).2 h).trans hsz

/-- Witness for C6 as amended: captures at 640 x 480 and then at
800 x 600. -/
theorem imgSize_is_last_accepted_witness :
    (captureLoop [1] (Session.init Nat)
        [⟨⟨640, 480⟩, ⟨[7], [1]⟩, 99⟩, ⟨⟨800, 600⟩, ⟨[8], [1]⟩, 99⟩]).imgSize = ⟨800, 600⟩ :=
  (imgSize_is_last_accepted [1] (Session.init Nat)
    [⟨⟨640, 480⟩, ⟨[7], [1]⟩, 99⟩, ⟨⟨800, 600⟩, ⟨[8], [1]⟩, 99⟩] (by decide) (by decide)).1

/-- C8. For every session state, board and frame observation, one loop
iteration leaves the stored frames (`allCorners`, `allIds`), and `imgSize`
with them, exactly unchanged when the operator event is none (a key that is
neither ESC nor c), when it is cancel (ESC), or when it is capture (c) on an
observation that does not contain every board identifier. -/
theorem only_covered_capture_mutates {P : Type} (boardIds : List Int) (s : Session P)
    (t : Tick P)
    (h : (toChar t.key ≠ 27 ∧ toChar t.key ≠ 99) ∨ toChar t.key = 27 ∨
      (toChar t.key = 99 ∧ ¬ ∀ id ∈ boardIds, id ∈ t.detection.ids)) :
    (iteration boardIds s t).session = s ∧
    (iteration boardIds s t).session.allCorners = s.allCorners ∧
    (iteration boardIds s t).session.allIds = s.allIds := by
  have key : (iteration boardIds s t).session = s := by
    rcases h with ⟨h27, h99⟩ | h27 | ⟨h99, hmiss⟩
    · rw [iteration_other_key boardIds s t h27 h99]; rfl
    · rw [iteration_esc boardIds s t h27]; rfl
    · rw [iteration_reject boardIds s t h99 hmiss]; rfl
  exact ⟨key, by rw [key], by rw [key]⟩

/-- Witness for C8, Scenario A: the board expects
1, 2, 3, 4, the observation has 1, 2, 3, the operator presses c on the empty
corpus; the corpus size stays 0. -/
theorem only_covered_capture_mutates_witness :
    (iteration [1, 2, 3, 4] (Session.init Nat) ⟨⟨640, 480⟩, ⟨[5, 6, 7], [1, 2, 3]⟩, 99⟩).session =
      Session.init Nat ∧
    (iteration [1, 2, 3, 4] (Session.init Nat)
      ⟨⟨640, 480⟩, ⟨[5, 6, 7], [1, 2, 3]⟩, 99⟩).session.allIds.length = 0 :=
  ⟨(only_covered_capture_mutates [1, 2, 3, 4] (Session.init Nat)
      ⟨⟨640, 480⟩, ⟨[5, 6, 7], [1, 2, 3]⟩, 99⟩ (Or.inr (Or.inr (by decide)))).1,
   by decide⟩

/-- C9. For every session state and every capture event (key c) on a
non-empty observation that contains every board identifier, the stored frame
sequence after the iteration is the previous sequence followed by exactly that
observation, its ids and its corners unmodified: the corpus size grows by
exactly one and no earlier frame is removed, changed or reordered. -/
theorem accepted_capture_is_append {P : Type} (boardIds : List Int) (s : Session P)
    (t : Tick P) (hkey : toChar t.key = 99) (hne : t.detection.ids ≠ [])
    (hcov : ∀ id ∈ boardIds, id ∈ t.detection.ids) :
    (iteration boardIds s t).session.allCorners = s.allCorners ++ [t.detection.corners] ∧
    (iteration boardIds s t).session.allIds = s.allIds ++ [t.detection.ids] ∧
    (iteration boardIds s t).session.allIds.length = s.allIds.length + 1 ∧
    (iteration boardIds s t).session.allCorners.length = s.allCorners.length + 1 ∧
    (∀ i : Nat, i < s.allIds.length →
      (iteration boardIds s t).session.allIds[i]? = s.allIds[i]?) ∧
    (∀ i : Nat, i < s.allCorners.length →
      (iteration boardIds s t).session.allCorners[i]? = s.allCorners[i]?) := by
  rw [iteration_accept boardIds s t hkey hne hcov]
  refine ⟨rfl, rfl, ?_, ?_, ?_, ?_⟩
  · simp [Flow.session]
  · simp [Flow.session]
  · intro i hi
    show (s.allIds ++ [t.detection.ids])[i]? = _
    exact List.getElem?_append_left hi
  · intro i hi
    show (s.allCorners ++ [t.detection.corners])[i]? = _
    exact List.getElem?_append_left hi

/-- Witness for C9, Scenario B: the board expects
1, 2, 3, 4, the observation has 4, 3, 2, 1, 9, the operator presses c on the
empty corpus; the corpus size becomes 1. -/
theorem accepted_capture_is_append_witness :
    (iteration [1, 2, 3, 4] (Session.init Nat)
      ⟨⟨640, 480⟩, ⟨[5, 6, 7, 8, 9], [4, 3, 2, 1, 9]⟩, 99⟩).session.allIds =
        [] ++ [[4, 3, 2, 1, 9]] ∧
    (iteration [1, 2, 3, 4] (Session.init Nat)
      ⟨⟨640, 480⟩, ⟨[5, 6, 7, 8, 9], [4, 3, 2, 1, 9]⟩, 99⟩).session.allIds.length = 0 + 1 :=
  ⟨(accepted_capture_is_append [1, 2, 3, 4] (Session.init Nat)
      ⟨⟨640, 480⟩, ⟨[5, 6, 7, 8, 9], [4, 3, 2, 1, 9]⟩, 99⟩
      (by decide) (by decide) (by decide)).2.1,
   (accepted_capture_is_append [1, 2, 3, 4] (Session.init Nat)
      ⟨⟨640, 480⟩, ⟨[5, 6, 7, 8, 9], [4, 3, 2, 1, 9]⟩, 99⟩
      (by decide) (by decide) (by decide)).2.2.1⟩

/-- C10. For every board `b`, every detected id list `o` and every list `x` of
identifiers none of which is on the board, the coverage result for `o` with
the elements of `x` added at any positions (any arrangement `o2` of the
elements of `o` and of `x`) equals the coverage result for `o`. -/
theorem extra_ids_ignored (b o x o2 : List Int) (hx : ∀ id ∈ x, id ∉ b)
    (hadd : List.Perm o2 (o ++ x)) :
    allMarkersPresent b o2 = allMarkersPresent b o := by
  rw [Bool.eq_iff_iff, allMarkersPresent_iff, allMarkersPresent_iff]
  constructor
  · intro h id hid
    have hm : id ∈ o ++ x := hadd.mem_iff.1 (h id hid)
    rcases List.mem_append.1 hm with ho | hxx
    · exact ho
    · exact absurd hid (hx id hxx)
  · intro h id hid
    exact hadd.mem_iff.2 (List.mem_append.2 (Or.inl (h id hid)))

/-- Witness for C10: the board 1, 2, 3, 4, the observation
4, 3, 2, 1, and the identifiers 9 and 7 added in the middle and at the front. -/
theorem extra_ids_ignored_witness :
    allMarkersPresent [1, 2, 3, 4] [7, 4, 3, 9, 2, 1] = allMarkersPresent [1, 2, 3, 4] [4, 3, 2, 1] :=
  extra_ids_ignored [1, 2, 3, 4] [4, 3, 2, 1] [9, 7] [7, 4, 3, 9, 2, 1] (by decide) (by decide)

/-! ## Lemmas on the reachable states -/

/-- An iteration either leaves the session as it was or took the accept
branch. -/
theorem iteration_session_cases {P : Type} (boardIds : List Int) (s : Session P)
    (t : Tick P) :
    (iteration boardIds s t).session = s ∨
    (toChar t.key = 99 ∧ t.detection.ids ≠ [] ∧ (∀ id ∈ boardIds, id ∈ t.detection.ids) ∧
      (iteration boardIds s t).session =
        { allCorners := s.allCorners ++ [t.detection.corners],
          allIds := s.allIds ++ [t.detection.ids],
          imgSize := t.imageSize }) := by
  by_cases h27 : toChar t.key = 27
  · left; rw [iteration_esc boardIds s t h27]; rfl
  · by_cases h99 : toChar t.key = 99
    · by_cases hcov : ∀ id ∈ boardIds, id ∈ t.detection.ids
      · by_cases hne : t.detection.ids = []
        · left
          simp [iteration, h27, h99, hne, Flow.session]
        · right
          refine ⟨h99, hne, hcov, ?_⟩
          rw [iteration_accept boardIds s t h99 hne hcov]; rfl
      · left; rw [iteration_reject boardIds s t h99 hcov]; rfl
    · left; rw [iteration_other_key boardIds s t h27 h99]; rfl

/-- On a capture event the iteration is decided by `captureAccepted`. -/
theorem iteration_of_capture {P : Type} (boardIds : List Int) (s : Session P) (t : Tick P)
    (hkey : toChar t.key = 99) :
    iteration boardIds s t =
      if captureAccepted boardIds t.detection.ids = true then
        .next { allCorners := s.allCorners ++ [t.detection.corners],
                allIds := s.allIds ++ [t.detection.ids],
                imgSize := t.imageSize }
      else .next s := by
  by_cases hpos : 0 < t.detection.ids.length
  · by_cases hall : allMarkersPresent boardIds t.detection.ids = true
    · simp [iteration, captureAccepted, hkey, hpos, hall]
    · simp [iteration, captureAccepted, hkey, hpos, hall]
  · simp [iteration, captureAccepted, hkey, hpos]

/-- The frames of a reachable session are the detector results of ticks that
took the accept branch, in order. -/
theorem reachable_frames {P : Type} (boardIds : List Int) (ok : Tick P → Prop)
    (s : Session P) (hr : Reachable boardIds ok s) :
    ∃ ts : List (Tick P),
      (∀ t ∈ ts, ok t ∧ t.detection.ids ≠ [] ∧ ∀ id ∈ boardIds, id ∈ t.detection.ids) ∧
      s.allCorners = ts.map (fun t => t.detection.corners) ∧
      s.allIds = ts.map (fun t => t.detection.ids) := by
  induction hr with
  | init => exact ⟨[], by simp, rfl, rfl⟩
  | step s t _ hok ih =>
    obtain ⟨ts, hts, hc, hi⟩ := ih
    rcases iteration_session_cases boardIds s t with hsame | ⟨_, hne, hcov, happ⟩
    · rw [hsame]; exact ⟨ts, hts, hc, hi⟩
    · rw [happ]
      refine ⟨ts ++ [t], ?_, ?_, ?_⟩
      · intro u hu
        rcases List.mem_append.1 hu with h1 | h2
        · exact hts u h1
        · have : u = t := by simpa using h2
          subst this
          exact ⟨hok, hne, hcov⟩
      · simp [hc]
      · simp [hi]

/-- Every state the loop passes through or ends in, on a stream of ticks, is
reachable. -/
theorem captureLoop_reachable {P : Type} (boardIds : List Int) (ok : Tick P → Prop)
    (stream : List (Tick P)) :
    ∀ s : Session P, Reachable boardIds ok s → (∀ t ∈ stream, ok t) →
      Reachable boardIds ok (captureLoop boardIds s stream) := by
  induction stream with
  | nil => intro s hs _; exact hs
  | cons t rest ih =>
    intro s hs hok
    have hstep := Reachable.step s t hs (hok t (List.mem_cons_self t rest))
    unfold captureLoop
    cases hit : iteration boardIds s t with
    | exit s1 =>
      rw [hit] at hstep
      exact hstep
    | next s1 =>
      rw [hit] at hstep
      exact ih s1 hstep (fun u hu => hok u (List.mem_cons_of_mem t hu))

/-! ## Lemmas on the part before the loop -/

/-- C13. In every state reachable from the empty corpus by any sequence of
frames and operator events, each frame held in the corpus has a non-empty id
list that contains every identifier of the board. -/
theorem stored_frames_complete {P : Type} (boardIds : List Int) (ok : Tick P → Prop)
    (s : Session P) (hr : Reachable boardIds ok s) (ids : List Int)
    (hmem : ids ∈ s.allIds) :
    ids ≠ [] ∧ ∀ id ∈ boardIds, id ∈ ids := by
  obtain ⟨ts, hts, _, hi⟩ := reachable_frames boardIds ok s hr
  rw [hi] at hmem
  obtain ⟨t, ht, rfl⟩ := List.mem_map.1 hmem
  exact (hts t ht).2

/-- Witness for C13: the board 1, 2; a rejected capture of 1 alone, an
accepted capture of 2, 1, 5, an idle tick, ESC. The one stored frame is
2, 1, 5. -/
theorem stored_frames_complete_witness :
    (captureLoop [1, 2] (Session.init Nat)
      [⟨⟨640, 480⟩, ⟨[7], [1]⟩, 99⟩, ⟨⟨640, 480⟩, ⟨[7, 8, 9], [2, 1, 5]⟩, 99⟩,
       ⟨⟨640, 480⟩, ⟨[7], [1]⟩, -1⟩, ⟨⟨640, 480⟩, ⟨[], []⟩, 27⟩]).allIds = [[2, 1, 5]] ∧
    (([2, 1, 5] : List Int) ≠ [] ∧
      ∀ id ∈ ([1, 2] : List Int), id ∈ ([2, 1, 5] : List Int)) :=
  ⟨by decide,
   stored_frames_complete [1, 2] (fun _ => True)
    (captureLoop [1, 2] (Session.init Nat)
      [⟨⟨640, 480⟩, ⟨[7], [1]⟩, 99⟩, ⟨⟨640, 480⟩, ⟨[7, 8, 9], [2, 1, 5]⟩, 99⟩,
       ⟨⟨640, 480⟩, ⟨[7], [1]⟩, -1⟩, ⟨⟨640, 480⟩, ⟨[], []⟩, 27⟩])
    (captureLoop_reachable [1, 2] (fun _ => True) _ _ Reachable.init
      (fun _ _ => True.intro))
    [2, 1, 5] (by decide)⟩

/-- C14. For every board, a board with no expected identifiers included, and
every session state, a capture event (key c) on an observation with zero
detected identifiers does not pass the capture gate and leaves the corpus
unchanged: the loop goes on with the same session. -/
theorem empty_observation_never_accepted {P : Type} (boardIds : List Int) (s : Session P)
    (t : Tick P) (hkey : toChar t.key = 99) (hempty : t.detection.ids = []) :
    captureAccepted boardIds t.detection.ids = false ∧
    iteration boardIds s t = .next s ∧
    (iteration boardIds s t).session.allCorners = s.allCorners ∧
    (iteration boardIds s t).session.allIds = s.allIds := by
  have hgate : captureAccepted boardIds t.detection.ids = false := by
    simp [captureAccepted, hempty]
  have hit : iteration boardIds s t = .next s := by
    rw [iteration_of_capture boardIds s t hkey, hgate]
    rfl
  exact ⟨hgate, hit, by rw [hit]; rfl, by rw [hit]; rfl⟩

/-- Witness for C14: the empty board, an observation with no ids, key c, on a
corpus of one frame. -/
theorem empty_observation_never_accepted_witness :
    captureAccepted [] ([] : List Int) = false ∧
    iteration [] (⟨[[7]], [[1]], ⟨640, 480⟩⟩ : Session Nat) ⟨⟨640, 480⟩, ⟨[], []⟩, 99⟩ =
      .next ⟨[[7]], [[1]], ⟨640, 480⟩⟩ :=
  ⟨(empty_observation_never_accepted [] (⟨[[7]], [[1]], ⟨640, 480⟩⟩ : Session Nat)
      ⟨⟨640, 480⟩, ⟨[], []⟩, 99⟩ (by decide) rfl).1,
   (empty_observation_never_accepted [] (⟨[[7]], [[1]], ⟨640, 480⟩⟩ : Session Nat)
      ⟨⟨640, 480⟩, ⟨[], []⟩, 99⟩ (by decide) rfl).2.1⟩

/-- C15. In every state reachable from the empty corpus, `allCorners` and
`allIds` hold the same number of frames; and if every detector result has as
many ids as corner polygons, then for every frame `i` of `allCorners` and
every `j < allCorners[i].size()` the accesses `allIds[i]` and `allIds[i][j]`
of the concatenation loop are within bounds, the loop returns, and the
program never ends in the indexing error. -/
theorem flatten_never_out_of_bounds {P : Type} (boardIds : List Int) (ok : Tick P → Prop)
    (s : Session P) (hr : Reachable boardIds ok s) :
    s.allCorners.length = s.allIds.length ∧
    ((∀ t : Tick P, ok t → t.detection.ids.length = t.detection.corners.length) →
      (∀ (i j : Nat) (cs : List P), s.allCorners[i]? = some cs → j < cs.length →
        ∃ (is : List Int) (id : Int), s.allIds[i]? = some is ∧ is[j]? = some id) ∧
      (flatten s.allCorners s.allIds).isSome = true ∧
      ∀ (minFrames : Int) (solverOk saveOk : Bool),
        afterLoop boardIds minFrames solverOk saveOk s ≠ .outOfBounds) := by
  obtain ⟨ts, hts, hc, hi⟩ := reachable_frames boardIds ok s hr
  refine ⟨by rw [hc, hi, List.length_map, List.length_map], ?_⟩
  intro hpair
  have hfl : flatten s.allCorners s.allIds =
      some { allCornersConcatenated := (ts.map (fun t => t.detection)).flatMap (fun f => f.corners),
             allIdsConcatenated := (ts.map (fun t => t.detection)).flatMap (fun f => f.ids),
             markerCounterPerFrame :=
               (ts.map (fun t => t.detection)).map (fun f => toInt32 f.corners.length) } := by
    have h := flatten_eq (ts.map (fun t => t.detection)) (by
      intro f hf
      obtain ⟨t, ht, rfl⟩ := List.mem_map.1 hf
      exact hpair t (hts t ht).1)
    rw [List.map_map, List.map_map] at h
    rw [hc, hi]
    exact h
  refine ⟨?_, by rw [hfl]; rfl, ?_⟩
  · intro i j cs hcs hj
    rw [hc, List.getElem?_map] at hcs
    cases hti : ts[i]? with
    | none => rw [hti] at hcs; cases hcs
    | some t =>
      rw [hti] at hcs
      have hcs2 : t.detection.corners = cs := by simpa using hcs
      have hmem : t ∈ ts := List.getElem?_mem hti
      have hlen : j < t.detection.ids.length := by
        rw [hpair t (hts t hmem).1, hcs2]; exact hj
      refine ⟨t.detection.ids, t.detection.ids[j], ?_, List.getElem?_eq_getElem hlen⟩
      rw [hi, List.getElem?_map, hti]
      rfl
  · intro minFrames solverOk saveOk h
    unfold afterLoop at h
    rw [hfl] at h
    by_cases hins : insufficientFrames s.allIds.length minFrames = true
    · rw [if_pos hins] at h; cases h
    · rw [if_neg hins] at h
      cases solverOk with
      | true => simp only [if_true] at h; cases h
      | false => simp only [Bool.false_eq_true, if_false] at h; cases h

/-- Witness for C15: two accepted captures, of two markers and of one, then
ESC. -/
theorem flatten_never_out_of_bounds_witness :
    (captureLoop [1] (Session.init Nat)
      [⟨⟨640, 480⟩, ⟨[7, 8], [1, 2]⟩, 99⟩, ⟨⟨640, 480⟩, ⟨[9], [1]⟩, 99⟩,
       ⟨⟨640, 480⟩, ⟨[], []⟩, 27⟩]).allCorners.length =
    (captureLoop [1] (Session.init Nat)
      [⟨⟨640, 480⟩, ⟨[7, 8], [1, 2]⟩, 99⟩, ⟨⟨640, 480⟩, ⟨[9], [1]⟩, 99⟩,
       ⟨⟨640, 480⟩, ⟨[], []⟩, 27⟩]).allIds.length ∧
    (flatten
      (captureLoop [1] (Session.init Nat)
        [⟨⟨640, 480⟩, ⟨[7, 8], [1, 2]⟩, 99⟩, ⟨⟨640, 480⟩, ⟨[9], [1]⟩, 99⟩,
         ⟨⟨640, 480⟩, ⟨[], []⟩, 27⟩]).allCorners
      (captureLoop [1] (Session.init Nat)
        [⟨⟨640, 480⟩, ⟨[7, 8], [1, 2]⟩, 99⟩, ⟨⟨640, 480⟩, ⟨[9], [1]⟩, 99⟩,
         ⟨⟨640, 480⟩, ⟨[], []⟩, 27⟩]).allIds).isSome = true :=
  ⟨(flatten_never_out_of_bounds [1]
      (fun t => t.detection.ids.length = t.detection.corners.length) _
      (captureLoop_reachable [1] _
        [⟨⟨640, 480⟩, ⟨[7, 8], [1, 2]⟩, 99⟩, ⟨⟨640, 480⟩, ⟨[9], [1]⟩, 99⟩,
         ⟨⟨640, 480⟩, ⟨[], []⟩, 27⟩] _ Reachable.init (by decide))).1,
   ((flatten_never_out_of_bounds [1]
      (fun t => t.detection.ids.length = t.detection.corners.length) _
      (captureLoop_reachable [1] _
        [⟨⟨640, 480⟩, ⟨[7, 8], [1, 2]⟩, 99⟩, ⟨⟨640, 480⟩, ⟨[9], [1]⟩, 99⟩,
         ⟨⟨640, 480⟩, ⟨[], []⟩, 27⟩] _ Reachable.init (by decide))).2
      (fun _ h => h)).2.1⟩

end Calibrate

namespace GenerateBoard

/-! ## Board geometry of `generate_board`: lemmas and the claim -/

/-- An `int` result within range is not changed by wrapping. -/
theorem wrapInt_of_range (x : Int) (hlo : -(2 ^ 31) ≤ x) (hhi : x < 2 ^ 31) :
    wrapInt x = x := by
  unfold wrapInt
  omega

/-- An `int` below `2^24` in absolute value is a `float` already. -/
theorem floatOfInt_of_small (n : Int) (h : n.natAbs < 2 ^ 24) : floatOfInt n = n := by
  have hr : List.range 9 = 0 :: [1, 2, 3, 4, 5, 6, 7, 8] := by decide
  have h0 : n.natAbs / 2 ^ 0 < 2 ^ 24 := by simpa using h
  unfold floatOfInt
  rw [hr, List.find?_cons_of_pos _ (by simpa using h0)]
  simp [Nat.mod_one, Int.sign_mul_abs]

/-- What the code computes when every intermediate result fits an `int`: the
value of `-c` counts the markers along X and sets the width, the value of `-r`
counts the markers along Y and sets the height. -/
theorem generateBoard_geometry (argc : Int) (markersR markersC markerSize markerSeparation : Int)
    (hargc : 7 ≤ argc)
    (hsum : -(2 ^ 31) ≤ markerSize + markerSeparation ∧ markerSize + markerSeparation < 2 ^ 31)
    (hw : -(2 ^ 31) ≤ markersC * (markerSize + markerSeparation) ∧
      markersC * (markerSize + markerSeparation) < 2 ^ 31)
    (hw2 : -(2 ^ 31) ≤ markersC * (markerSize + markerSeparation) - markerSeparation ∧
      markersC * (markerSize + markerSeparation) - markerSeparation < 2 ^ 31)
    (hh : -(2 ^ 31) ≤ markersR * (markerSize + markerSeparation) ∧
      markersR * (markerSize + markerSeparation) < 2 ^ 31)
    (hh2 : -(2 ^ 31) ≤ markersR * (markerSize + markerSeparation) - markerSeparation ∧
      markersR * (markerSize + markerSeparation) - markerSeparation < 2 ^ 31) :
    generateBoard argc true markersR markersC markerSize markerSeparation =
      some { imageWidth := markersC * (markerSize + markerSeparation) - markerSeparation,
             imageHeight := markersR * (markerSize + markerSeparation) - markerSeparation,
             markersX := markersC,
             markersY := markersR,
             markerLength := floatOfInt markerSize,
             markerSeparation := floatOfInt markerSeparation } := by
  have h1 : ¬ argc < 7 := by omega
  unfold generateBoard
  rw [if_neg h1]
  rw [wrapInt_of_range _ hsum.1 hsum.2, wrapInt_of_range _ hw.1 hw.2,
    wrapInt_of_range _ hw2.1 hw2.2, wrapInt_of_range _ hh.1 hh.2,
    wrapInt_of_range _ hh2.1 hh2.2]
  simp

/-- C12 fails on the code at `-r=2 -c=3 -l=100 -s=10`. The help text calls
`-r` the number of markers in the X direction and `-c` the number in the Y
direction, so the board should have 2 markers along X and 3 along Y and the
image should be 210 wide and 320 high. The code creates the board with 3
markers along X and 2 along Y and draws it 320 wide and 210 high. -/
theorem generate_board_swaps_r_and_c :
    ∃ b : BoardRequest,
      generateBoard 7 true 2 3 100 10 = some b ∧
      b.markersX = 3 ∧ b.markersY = 2 ∧ b.imageWidth = 320 ∧ b.imageHeight = 210 ∧
      b.markersX ≠ 2 ∧ b.markersY ≠ 3 ∧
      b.imageWidth ≠ 2 * (100 + 10) - 10 ∧ b.imageHeight ≠ 3 * (100 + 10) - 10 :=
  ⟨⟨320, 210, 3, 2, 100, 10⟩, by decide, rfl, rfl, rfl, rfl, by decide, by decide,
    by decide, by decide⟩

end GenerateBoard
